import Mathlib

/-!
Shallow embedding of the jarvis voice-assistant task subsystem.

Sources embedded here:
* `src/task_manager.py` — the `TaskManager` class: task records, the pending
  and completed sequences, and the operations `add_task`, `delete_task`,
  `complete_task`, `clear_completed_tasks`, `search_tasks`, `save_tasks`.
* `src/Synbi.py` — the `main_process` dispatch chain (trigger substring
  matching in declaration order) and the body of the "new task" branch.
* `src/file_manager.py` — `delete_item` and `listen_for_confirmation`.

Python strings are modelled as Lean `String` restricted to the ASCII
behaviour of `str.lower`, `str.strip`, `int(...)` and the `in` operator,
which is exact for the literals appearing in the claims. Timestamps
(`datetime.now().isoformat()`) are threaded as explicit `now : String`
parameters. File input/output always succeeds in the model (`save_tasks`
is the pure part of the source function: it stamps `last_modified` and
produces the persisted document).
-/

namespace Jarvis

/-- Model of Python `str.lower()` (ASCII case folding). -/
def pyLower (s : String) : String := String.mk (s.toList.map Char.toLower)

/-- ASCII whitespace, as stripped by Python `str.strip()`. -/
def isSpaceChar (c : Char) : Bool :=
  c = ' ' || c = '\t' || c = '\n' || c = '\r'

/-- Model of Python `str.strip()` (removes leading/trailing whitespace). -/
def pyStrip (s : String) : String :=
  String.mk (((s.toList.dropWhile isSpaceChar).reverse.dropWhile isSpaceChar).reverse)

/-- Substring test on character lists: `containsSub needle hay` is true iff
`needle` occurs contiguously in `hay`. -/
def containsSub (needle : List Char) : List Char → Bool
  | [] => needle.isEmpty
  | c :: cs => needle.isPrefixOf (c :: cs) || containsSub needle cs

/-- Model of the Python expression `needle in hay` on strings. -/
def strContains (hay needle : String) : Bool :=
  containsSub needle.toList hay.toList

/-- Digits-to-number accumulator used by the `int(...)` model. -/
def digitsToNat (cs : List Char) : Nat :=
  cs.foldl (fun a c => a * 10 + (c.toNat - 48)) 0

/-- Model of Python `int(string)`: optional surrounding whitespace, an
optional sign, then one or more ASCII digits; anything else raises
`ValueError`, modelled as `none`. (Digit-group underscores and non-ASCII
digits, which CPython also accepts, do not occur in this program.) -/
def pyParseInt (s : String) : Option Int :=
  match (pyStrip s).toList with
  | [] => none
  | c :: rest =>
    if c = '-' then
      if rest.isEmpty then none
      else if rest.all Char.isDigit then some (-(digitsToNat rest : Int)) else none
    else if c = '+' then
      if rest.isEmpty then none
      else if rest.all Char.isDigit then some ((digitsToNat rest : Int)) else none
    else
      if (c :: rest).all Char.isDigit then some ((digitsToNat (c :: rest) : Int)) else none

/-- One task record, mirroring the dict built in `TaskManager.add_task`
(src/task_manager.py lines 64-72). -/
structure Task where
  id : Int
  text : String
  priority : String
  status : String
  created : String
  due_date : Option String
  completed_date : Option String
deriving DecidableEq

/-- The persistent task store, mirroring the JSON document of
`TaskManager.load_tasks` (src/task_manager.py lines 28-33): key `tasks`
holds the pending sequence, `completed` the completed sequence. -/
structure Store where
  tasks : List Task
  completed : List Task
  created_date : String
  last_modified : String
deriving DecidableEq

/-- A fresh store, as built by `load_tasks` when no file exists
(src/task_manager.py lines 28-33). -/
def emptyStore (now : String) : Store :=
  { tasks := [], completed := [], created_date := now, last_modified := now }

/-- The pure effect of `TaskManager.save_tasks` (src/task_manager.py lines
43-54): stamp `last_modified` with the current time. Writing the JSON file
is modelled separately by `storeToJson`. -/
def saveTasks (now : String) (s : Store) : Store :=
  { s with last_modified := now }

/-- Model of `TaskManager.add_task` (src/task_manager.py lines 56-79). -/
def addTask (now taskText priority : String) (dueDate : Option String) (s : Store) :
    String × Store :=
  if pyStrip taskText = "" then
    ("Error: Task cannot be empty.", s)
  else
    let taskId : Int := (s.tasks.length : Int) + 1
    let newTask : Task :=
      { id := taskId, text := pyStrip taskText, priority := pyLower priority,
        status := "pending", created := now, due_date := dueDate,
        completed_date := none }
    ("Task added successfully: " ++ pyStrip taskText,
     saveTasks now { s with tasks := s.tasks ++ [newTask] })

/-- First match of a predicate in a list, together with its position.
This is the search performed by the `for` loops of `delete_task` and
`complete_task`, which stop at the first matching pending task. -/
def findWithIdx {α : Type} (p : α → Bool) : List α → Option (Nat × α)
  | [] => none
  | a :: as =>
    if p a then some (0, a)
    else (findWithIdx p as).map (fun r => (r.1 + 1, r.2))

/-- Model of Python `list.remove(x)` restricted to the case where `x` is
present: drop the first element equal to `x`. -/
def pyRemove {α : Type} [DecidableEq α] (x : α) : List α → List α
  | [] => []
  | a :: as => if a = x then as else a :: pyRemove x as

/-- Identifier resolution shared by `delete_task` (lines 85-98) and
`complete_task` (lines 108-124): `int(task_identifier)` is attempted once;
on success the pending list is scanned for the first task with that `id`,
on `ValueError` it is scanned for the first task whose lowercased text
contains the lowercased identifier. -/
def matchesIdent (ident : String) (t : Task) : Bool :=
  match pyParseInt ident with
  | some n => t.id == n
  | none => strContains (pyLower t.text) (pyLower ident)

/-- The first pending task matched by `matchesIdent`, with its index. -/
def resolvePending (ident : String) (l : List Task) : Option (Nat × Task) :=
  findWithIdx (matchesIdent ident) l

/-- The not-found message of `delete_task`/`complete_task`: the ID wording
when `int(...)` succeeded, the text wording when it raised. -/
def notFoundMsg (ident : String) : String :=
  match pyParseInt ident with
  | some _ => "ID."
  | none => "text."

/-- Model of `TaskManager.delete_task` (src/task_manager.py lines 81-102):
resolve the identifier against pending, `pop` the matched index and save;
on no match return the not-found message with the store untouched. -/
def deleteTask (now ident : String) (s : Store) : String × Store :=
  match resolvePending ident s.tasks with
  | some (i, t) =>
      ("Task deleted: " ++ t.text,
       saveTasks now { s with tasks := s.tasks.eraseIdx i })
  | none => ("Task not found with that " ++ notFoundMsg ident, s)

/-- Model of `TaskManager.complete_task` (src/task_manager.py lines
104-131): resolve the identifier against pending; mutate the matched task
in place (status `completed`, stamped `completed_date`), append the
mutated record to `completed`, then `list.remove` it from pending
(removal of the first equal element) and save. -/
def completeTask (now ident : String) (s : Store) : String × Store :=
  match resolvePending ident s.tasks with
  | some (i, t) =>
      let mutated : Task := { t with status := "completed", completed_date := some now }
      ("Task completed: " ++ mutated.text,
       saveTasks now
         { s with tasks := pyRemove mutated (s.tasks.set i mutated),
                  completed := s.completed ++ [mutated] })
  | none => ("Task not found with that " ++ notFoundMsg ident, s)

/-- Model of `TaskManager.clear_completed_tasks` (src/task_manager.py
lines 182-189). -/
def clearCompleted (now : String) (s : Store) : String × Store :=
  let count := s.completed.length
  ("Cleared " ++ toString count ++ " completed task" ++
     (if count ≠ 1 then "s" else "") ++ ".",
   saveTasks now { s with completed := [] })

/-- Model of `TaskManager.search_tasks` (src/task_manager.py lines
191-196): case-insensitive substring filter over pending text. -/
def searchTasks (term : String) (s : Store) : List Task :=
  s.tasks.filter (fun t => strContains (pyLower t.text) (pyLower term))

/-- One mutating store operation, as dispatched by the assistant. -/
inductive Op where
  | add (now text priority : String) (dueDate : Option String)
  | del (now ident : String)
  | comp (now ident : String)
  | clear (now : String)

/-- Apply one operation, keeping only the store (messages discarded). -/
def applyOp (s : Store) : Op → Store
  | Op.add now text priority dueDate => (addTask now text priority dueDate s).2
  | Op.del now ident => (deleteTask now ident s).2
  | Op.comp now ident => (completeTask now ident s).2
  | Op.clear now => (clearCompleted now s).2

/-- Run a sequence of operations from a given store. -/
def runOps (s : Store) (ops : List Op) : Store := ops.foldl applyOp s

/-! ### Persisted JSON representation

`save_tasks` writes `json.dump(self.tasks, file)` and `load_tasks` reads it
back with `json.load` (src/task_manager.py lines 18-54). The document is
modelled as a JSON value; `storeToJson` is the document written by `save`,
`jsonToStore` the typed reading of the document returned by `load`. -/

/-- JSON values, restricted to the constructors the task document uses. -/
inductive JVal where
  | null
  | str (s : String)
  | num (n : Int)
  | arr (elems : List JVal)
  | obj (fields : List (String × JVal))

/-- Serialize an optional string field (`due_date`, `completed_date`). -/
def optStrToJson : Option String → JVal
  | none => JVal.null
  | some s => JVal.str s

/-- Serialize one task record, fields in the order `add_task` builds them. -/
def taskToJson (t : Task) : JVal :=
  JVal.obj [("id", JVal.num t.id), ("text", JVal.str t.text),
            ("priority", JVal.str t.priority), ("status", JVal.str t.status),
            ("created", JVal.str t.created), ("due_date", optStrToJson t.due_date),
            ("completed_date", optStrToJson t.completed_date)]

/-- The document `save_tasks` writes. -/
def storeToJson (s : Store) : JVal :=
  JVal.obj [("tasks", JVal.arr (s.tasks.map taskToJson)),
            ("completed", JVal.arr (s.completed.map taskToJson)),
            ("created_date", JVal.str s.created_date),
            ("last_modified", JVal.str s.last_modified)]

/-- First binding of a key in a JSON object. -/
def lookupField : List (String × JVal) → String → Option JVal
  | [], _ => none
  | (k, v) :: rest, key => if k = key then some v else lookupField rest key

/-- Read a JSON string. -/
def jsonAsStr : JVal → Option String
  | JVal.str s => some s
  | _ => none

/-- Read a JSON integer. -/
def jsonAsNum : JVal → Option Int
  | JVal.num n => some n
  | _ => none

/-- Read a nullable JSON string. -/
def jsonAsOptStr : JVal → Option (Option String)
  | JVal.null => some none
  | JVal.str s => some (some s)
  | _ => none

/-- Typed reading of one serialized task. -/
def jsonToTask (j : JVal) : Option Task :=
  match j with
  | JVal.obj fields => do
      let i ← (lookupField fields "id").bind jsonAsNum
      let tx ← (lookupField fields "text").bind jsonAsStr
      let pr ← (lookupField fields "priority").bind jsonAsStr
      let st ← (lookupField fields "status").bind jsonAsStr
      let cr ← (lookupField fields "created").bind jsonAsStr
      let du ← (lookupField fields "due_date").bind jsonAsOptStr
      let co ← (lookupField fields "completed_date").bind jsonAsOptStr
      pure { id := i, text := tx, priority := pr, status := st, created := cr,
             due_date := du, completed_date := co }
  | _ => none

/-- Typed reading of a serialized task array. -/
def jsonToTaskList : List JVal → Option (List Task)
  | [] => some []
  | j :: js => do
      let t ← jsonToTask j
      let ts ← jsonToTaskList js
      pure (t :: ts)

/-- Typed reading of the whole persisted document. -/
def jsonToStore (j : JVal) : Option Store :=
  match j with
  | JVal.obj fields =>
      match lookupField fields "tasks", lookupField fields "completed" with
      | some (JVal.arr ta), some (JVal.arr ca) => do
          let ts ← jsonToTaskList ta
          let cs ← jsonToTaskList ca
          let cd ← (lookupField fields "created_date").bind jsonAsStr
          let lm ← (lookupField fields "last_modified").bind jsonAsStr
          pure { tasks := ts, completed := cs, created_date := cd, last_modified := lm }
      | _, _ => none
  | _ => none

/-! ### The Synbi dispatch chain (src/Synbi.py, `main_process`)

`command()` lowercases every captured utterance before dispatch. The
dispatch is a chain of `elif` branches tested in declaration order, each
guarded by substring containment of literal trigger phrases. The chain is
embedded below branch by branch through the task-management section; the
remaining branches (file ops, web, WhatsApp, processes, gestures, exit)
all come after it and are grouped as the single tag `"later_branch"`,
which is faithful for any utterance resolved at or before the task
section. -/

/-- Left-to-right non-overlapping replacement on character lists, with a
fuel bound; models Python `str.replace` for a non-empty pattern. -/
def replaceFrom (pat rep : List Char) : Nat → List Char → List Char
  | _, [] => []
  | 0, l => l
  | Nat.succ fuel, c :: cs =>
      if !pat.isEmpty && pat.isPrefixOf (c :: cs) then
        rep ++ replaceFrom pat rep fuel (List.drop pat.length (c :: cs))
      else
        c :: replaceFrom pat rep fuel cs

/-- Model of Python `s.replace(pat, rep)` for the non-empty patterns used
by the dispatcher. -/
def pyReplace (s pat rep : String) : String :=
  String.mk (replaceFrom pat.toList rep.toList s.toList.length s.toList)

/-- The intent the `main_process` chain resolves an utterance to, as a
tag naming the branch taken. Branch conditions are transcribed in source
order from src/Synbi.py lines 347-636. -/
def synbiIntent (request : String) : String :=
  if strContains request "wait" then "wait"
  else if strContains request "hello" then "hello"
  else if strContains request "play spotify" then "play_spotify"
  else if strContains request "pause spotify" || strContains request "stop spotify" then "pause_spotify"
  else if strContains request "resume spotify" then "resume_spotify"
  else if strContains request "next song" then "next_song"
  else if strContains request "previous song" then "previous_song"
  else if strContains request "shuffle on" then "shuffle_on"
  else if strContains request "shuffle off" then "shuffle_off"
  else if strContains request "repeat song" then "repeat_song"
  else if strContains request "repeat playlist" then "repeat_playlist"
  else if strContains request "repeat off" then "repeat_off"
  else if strContains request "spotify status" then "spotify_status"
  else if strContains request "play" &&
          (strContains request "youtube" || strContains request "video" ||
           strContains request "song" || strContains request "music") then "play_youtube"
  else if strContains request "pause youtube" || strContains request "pause video" then "pause_video"
  else if strContains request "resume youtube" || strContains request "resume video" then "resume_video"
  else if strContains request "next youtube" || strContains request "next video" then "next_video"
  else if strContains request "previous youtube" || strContains request "previous video" then "previous_video"
  else if strContains request "mute youtube" || strContains request "mute video" then "mute_video"
  else if strContains request "fullscreen youtube" || strContains request "fullscreen video" then "fullscreen_video"
  else if strContains request "take picture" || strContains request "take a photo" then "take_picture"
  else if strContains request "record video" then "record_video"
  else if strContains request "take screenshot" || strContains request "screenshot" then "screenshot"
  else if strContains request "internet speed" || strContains request "network speed" ||
          strContains request "check internet" then "internet_speed"
  else if strContains request "battery status" || strContains request "battery level" ||
          strContains request "check battery" then "battery_status"
  else if strContains request "system info" || strContains request "system status" ||
          strContains request "check system" then "system_info"
  else if strContains request "weather" || strContains request "temperature" ||
          strContains request "forecast" then "weather"
  else if strContains request "set brightness" then "set_brightness"
  else if strContains request "set volume" then "set_volume"
  else if strContains request "say time" then "say_time"
  else if strContains request "say date" then "say_date"
  else if strContains request "new task" || strContains request "add task" then "new_task"
  else if strContains request "delete task" || strContains request "remove task" then "delete_task"
  else if strContains request "complete task" || strContains request "mark task complete" ||
          strContains request "finish task" then "complete_task"
  else if strContains request "speak task" || strContains request "read tasks" ||
          strContains request "list tasks" then "speak_task"
  else if strContains request "task summary" || strContains request "task status" then "task_summary"
  else if strContains request "show work" || strContains request "show tasks" then "show_work"
  else if strContains request "clear completed" || strContains request "clear finished tasks" then "clear_completed"
  else if strContains request "search task" || strContains request "find task" then "search_task"
  else "later_branch"

/-- The remainder the "new task" branch passes to `add_task`
(src/Synbi.py line 533): both trigger phrases replaced by the empty
string, then stripped. -/
def newTaskText (request : String) : String :=
  pyStrip (pyReplace (pyReplace request "new task" "") "add task" "")

/-- The priority the "new task" branch chooses (src/Synbi.py lines
536-539). -/
def newTaskPriority (request : String) : String :=
  if strContains request "high priority" || strContains request "urgent" ||
     strContains request "important" then "high"
  else if strContains request "low priority" || strContains request "not urgent" then "low"
  else "medium"

/-- Body of the "new task" branch (src/Synbi.py lines 532-551) when the
utterance carries the task text inline: call `add_task` with the stripped
remainder and detected priority. With an empty remainder the branch asks a
follow-up question instead and the store is untouched. -/
def newTaskBranch (now request : String) (s : Store) : String × Store :=
  if newTaskText request = "" then
    ("What task would you like to add?", s)
  else
    addTask now (newTaskText request) (newTaskPriority request) none s

/-! ### File deletion confirmation (src/file_manager.py) -/

/-- Affirmative tokens accepted by `listen_for_confirmation` (line 157). -/
def affirmTokens : List String := ["yes", "yeah", "yep", "sure", "okay", "ok", "confirm"]

/-- Negative tokens accepted by `listen_for_confirmation` (line 159). -/
def negTokens : List String := ["no", "nope", "nah", "cancel", "stop"]

/-- Classify one listening attempt: `none` models a failed capture (speech
timeout, unintelligible audio, recognizer error — all of which the source
catches and retries); a captured utterance is lowercased and compared
against the two token lists; an unrecognized utterance yields no decision. -/
def classifyConfirmation : Option String → Option Bool
  | none => none
  | some resp =>
      let r := pyLower resp
      if affirmTokens.contains r then some true
      else if negTokens.contains r then some false
      else none

/-- The attempt loop of `listen_for_confirmation` (lines 148-172): up to
`maxAttempts` responses are examined; the first affirmative returns
"yes", the first negative returns "no", undecidable attempts are skipped,
and exhausting the attempts returns "no". -/
def confirmLoop : Nat → List (Option String) → String
  | 0, _ => "no"
  | Nat.succ _, [] => "no"
  | Nat.succ k, r :: rest =>
      match classifyConfirmation r with
      | some true => "yes"
      | some false => "no"
      | none => confirmLoop k rest

/-- Model of `listen_for_confirmation` (src/file_manager.py lines
144-172): `max_attempts = 3`. -/
def listenForConfirmation (responses : List (Option String)) : String :=
  confirmLoop 3 responses

/-- The first decision among a list of attempts. -/
def firstDecision (l : List (Option String)) : Option Bool :=
  l.findSome? classifyConfirmation

/-- A single quote character, for the message strings of `delete_item`. -/
def sq (s : String) : String :=
  String.singleton (Char.ofNat 39) ++ s ++ String.singleton (Char.ofNat 39)

/-- External state `delete_item` observes about the target path:
`pathOk` is the result of `validate_path`, `isDir` selects `rmtree`
versus `remove` (both are a single actuator invocation). -/
structure FsItem where
  pathOk : Bool
  isDir : Bool

/-- Model of `delete_item` (src/file_manager.py lines 99-141). The first
component counts filesystem delete invocations (0 or 1); file size
formatting only affects the spoken prompt and is omitted. -/
def deleteItem (itemName fromFolder : String) (it : FsItem)
    (responses : List (Option String)) : Nat × String :=
  if !it.pathOk then
    (0, "Error: " ++ sq itemName ++ " not found in " ++ sq fromFolder ++
        " or path is not accessible.")
  else if listenForConfirmation responses ≠ "yes" then
    (0, "Delete operation cancelled.")
  else
    (1, "Successfully deleted " ++ sq itemName ++ " from " ++ sq fromFolder ++ ".")

/-! ### Store invariants -/

/-- Every pending task carries status `"pending"`. -/
def PendingOk (s : Store) : Prop := ∀ t ∈ s.tasks, t.status = "pending"

/-- Every completed task carries status `"completed"` and a non-null
completion timestamp. -/
def CompletedOk (s : Store) : Prop :=
  ∀ t ∈ s.completed, t.status = "completed" ∧ t.completed_date ≠ none

/-- The store invariant maintained by every operation. -/
def StoreInv (s : Store) : Prop := PendingOk s ∧ CompletedOk s

/-! ### Helper lemmas -/

theorem containsSub_nil (l : List Char) : containsSub [] l = true := by
  cases l with
  | nil => rfl
  | cons c cs => rfl

theorem findWithIdx_eq_none {α : Type} (p : α → Bool) (l : List α) :
    findWithIdx p l = none ↔ ∀ a ∈ l, p a = false := by
  induction l with
  | nil => simp [findWithIdx]
  | cons x xs ih =>
    by_cases hx : p x
    · rw [findWithIdx, if_pos hx]
      refine iff_of_false (by simp) (fun hall => ?_)
      have hfx := hall x (List.mem_cons_self x xs)
      rw [hx] at hfx
      exact Bool.noConfusion hfx
    · rw [findWithIdx, if_neg hx]
      constructor
      · intro h a ha
        rcases List.mem_cons.mp ha with h1 | h1
        · subst h1; exact Bool.eq_false_iff.mpr hx
        · exact ih.mp (by simpa using h) a h1
      · intro hall
        have hnone : findWithIdx p xs = none :=
          ih.mpr (fun a ha => hall a (List.mem_cons_of_mem x ha))
        rw [hnone]
        rfl

theorem findWithIdx_eq_some {α : Type} (p : α → Bool) :
    ∀ (l : List α) (i : Nat) (a : α), findWithIdx p l = some (i, a) →
      l[i]? = some a ∧ p a = true ∧
        ∀ j b, j < i → l[j]? = some b → p b = false := by
  intro l
  induction l with
  | nil => intro i a h; simp [findWithIdx] at h
  | cons x xs ih =>
    intro i a h
    by_cases hx : p x
    · rw [findWithIdx, if_pos hx] at h
      have h2 : (0, x) = (i, a) := Option.some.inj h
      injection h2 with hi ha
      subst hi; subst ha
      exact ⟨by simp, hx, fun j b hj _ => absurd hj (Nat.not_lt_zero j)⟩
    · rw [findWithIdx, if_neg hx] at h
      cases hfind : findWithIdx p xs with
      | none => rw [hfind] at h; exact absurd h (by simp)
      | some r =>
        obtain ⟨i0, a0⟩ := r
        rw [hfind] at h
        have h2 : (i0 + 1, a0) = (i, a) := Option.some.inj h
        injection h2 with hi ha
        subst hi; subst ha
        obtain ⟨h1, hpa, h3⟩ := ih i0 a0 hfind
        refine ⟨by simpa using h1, hpa, ?_⟩
        intro j b hj hb
        cases j with
        | zero =>
          simp at hb
          subst hb
          exact Bool.eq_false_iff.mpr hx
        | succ j0 =>
          simp at hb
          exact h3 j0 b (Nat.lt_of_succ_lt_succ hj) hb

theorem pyRemove_set_eq_eraseIdx {α : Type} [DecidableEq α] :
    ∀ (l : List α) (i : Nat) (x : α), i < l.length → (∀ u ∈ l, u ≠ x) →
      pyRemove x (l.set i x) = l.eraseIdx i := by
  intro l
  induction l with
  | nil => intro i x hi _; simp at hi
  | cons a as ih =>
    intro i x hi hne
    cases i with
    | zero => simp [pyRemove]
    | succ j =>
      have ha : a ≠ x := hne a (List.mem_cons_self a as)
      simp only [List.set_cons_succ, List.eraseIdx_cons_succ, pyRemove, if_neg ha]
      have : pyRemove x (as.set j x) = as.eraseIdx j :=
        ih j x (Nat.lt_of_succ_lt_succ (by simpa using hi))
          (fun u hu => hne u (List.mem_cons_of_mem a hu))
      rw [this]

/-- On a store all of whose pending tasks are marked pending, a successful
resolution makes `completeTask` erase exactly the matched index and append
exactly the mutated record. -/
theorem completeTask_eq_of_resolve (now ident : String) (s : Store) (i : Nat) (t : Task)
    (hres : resolvePending ident s.tasks = some (i, t)) (hp : PendingOk s) :
    (completeTask now ident s).2.tasks = s.tasks.eraseIdx i ∧
    (completeTask now ident s).2.completed
      = s.completed ++ [{ t with status := "completed", completed_date := some now }] := by
  obtain ⟨hget, _, _⟩ := findWithIdx_eq_some _ _ _ _ hres
  have hi : i < s.tasks.length := by
    by_contra hcon
    rw [List.getElem?_eq_none (Nat.le_of_not_lt hcon)] at hget
    exact Option.noConfusion hget
  have hne : ∀ u ∈ s.tasks, u ≠ { t with status := "completed", completed_date := some now } := by
    intro u hu he
    have hst := hp u hu
    rw [he] at hst
    simp at hst
  constructor
  · simp only [completeTask, hres, saveTasks]
    exact pyRemove_set_eq_eraseIdx s.tasks i _ hi hne
  · simp only [completeTask, hres, saveTasks]

theorem storeInv_empty (now : String) : StoreInv (emptyStore now) := by
  constructor <;> intro t ht <;> simp [emptyStore] at ht

theorem storeInv_applyOp (s : Store) (op : Op) (h : StoreInv s) : StoreInv (applyOp s op) := by
  obtain ⟨hp, hc⟩ := h
  cases op with
  | add now text priority dueDate =>
    by_cases he : pyStrip text = ""
    · have hs : applyOp s (Op.add now text priority dueDate) = s := by
        simp [applyOp, addTask, he]
      rw [hs]; exact ⟨hp, hc⟩
    · have hs : (applyOp s (Op.add now text priority dueDate)).tasks
            = s.tasks ++ [{ id := (s.tasks.length : Int) + 1, text := pyStrip text,
                            priority := pyLower priority, status := "pending", created := now,
                            due_date := dueDate, completed_date := none }] ∧
          (applyOp s (Op.add now text priority dueDate)).completed = s.completed := by
        simp [applyOp, addTask, he, saveTasks]
      constructor
      · intro t ht
        rw [hs.1] at ht
        simp at ht
        rcases ht with ht | ht
        · exact hp t ht
        · rw [ht]
      · intro t ht
        rw [hs.2] at ht
        exact hc t ht
  | del now ident =>
    cases hres : resolvePending ident s.tasks with
    | none =>
      have hs : applyOp s (Op.del now ident) = s := by
        simp [applyOp, deleteTask, hres]
      rw [hs]; exact ⟨hp, hc⟩
    | some r =>
      obtain ⟨i, t⟩ := r
      have hs : (applyOp s (Op.del now ident)).tasks = s.tasks.eraseIdx i ∧
          (applyOp s (Op.del now ident)).completed = s.completed := by
        simp [applyOp, deleteTask, hres, saveTasks]
      constructor
      · intro u hu
        rw [hs.1] at hu
        exact hp u ((s.tasks.eraseIdx_sublist i).subset hu)
      · intro u hu
        rw [hs.2] at hu
        exact hc u hu
  | comp now ident =>
    cases hres : resolvePending ident s.tasks with
    | none =>
      have hs : applyOp s (Op.comp now ident) = s := by
        simp [applyOp, completeTask, hres]
      rw [hs]; exact ⟨hp, hc⟩
    | some r =>
      obtain ⟨i, t⟩ := r
      obtain ⟨h1, h2⟩ := completeTask_eq_of_resolve now ident s i t hres hp
      constructor
      · intro u hu
        rw [show (applyOp s (Op.comp now ident)).tasks = (completeTask now ident s).2.tasks from rfl,
            h1] at hu
        exact hp u ((s.tasks.eraseIdx_sublist i).subset hu)
      · intro u hu
        rw [show (applyOp s (Op.comp now ident)).completed
              = (completeTask now ident s).2.completed from rfl, h2] at hu
        simp at hu
        rcases hu with hu | hu
        · exact hc u hu
        · rw [hu]
          exact ⟨rfl, by simp⟩
  | clear now =>
    constructor
    · intro t ht
      exact hp t ht
    · intro t ht
      simp [applyOp, clearCompleted, saveTasks] at ht

theorem storeInv_runOps (s : Store) (ops : List Op) (h : StoreInv s) :
    StoreInv (runOps s ops) := by
  induction ops generalizing s with
  | nil => exact h
  | cons op rest ih => exact ih (applyOp s op) (storeInv_applyOp s op h)

theorem storeInv_disjoint (s : Store) (h : StoreInv s) :
    ∀ u ∈ s.tasks, u ∉ s.completed := by
  intro u hu hc
  have h1 := h.1 u hu
  have h2 := (h.2 u hc).1
  rw [h1] at h2
  exact absurd h2 (by decide)

theorem jsonToTask_taskToJson (t : Task) : jsonToTask (taskToJson t) = some t := by
  cases t with
  | mk id text priority status created due comp => cases due <;> cases comp <;> rfl

theorem jsonToTaskList_map (l : List Task) :
    jsonToTaskList (l.map taskToJson) = some l := by
  induction l with
  | nil => rfl
  | cons t ts ih =>
    simp only [List.map_cons, jsonToTaskList, jsonToTask_taskToJson, ih]
    rfl

theorem jsonToStore_storeToJson (s : Store) : jsonToStore (storeToJson s) = some s := by
  cases s with
  | mk tasks completed cd lm =>
    simp [storeToJson, jsonToStore, lookupField, jsonToTaskList_map, jsonAsStr]

theorem confirmLoop_eq_yes : ∀ (k : Nat) (l : List (Option String)),
    confirmLoop k l = "yes" ↔ (l.take k).findSome? classifyConfirmation = some true := by
  intro k
  induction k with
  | zero =>
    intro l
    have h0 : confirmLoop 0 l = "no" := by cases l <;> rfl
    rw [h0, List.take_zero, List.findSome?_nil]
    exact iff_of_false (by decide) (by decide)
  | succ n ih =>
    intro l
    cases l with
    | nil =>
      rw [show confirmLoop (n + 1) ([] : List (Option String)) = "no" from rfl,
          List.take_nil, List.findSome?_nil]
      exact iff_of_false (by decide) (by decide)
    | cons r rest =>
      rw [List.take_succ_cons, List.findSome?_cons]
      cases hr : classifyConfirmation r with
      | none =>
        have hstep : confirmLoop (n + 1) (r :: rest) = confirmLoop n rest := by
          simp [confirmLoop, hr]
        rw [hstep]
        exact ih rest
      | some b =>
        cases b with
        | true =>
          have hstep : confirmLoop (n + 1) (r :: rest) = "yes" := by
            simp [confirmLoop, hr]
          rw [hstep]
          simp
        | false =>
          have hstep : confirmLoop (n + 1) (r :: rest) = "no" := by
            simp [confirmLoop, hr]
          rw [hstep]
          exact iff_of_false (by decide) (by simp)

/-! ### Claim theorems -/

/-- C1: a `complete_task` call that resolves to pending task `t` removes
that task from the pending sequence (erasing exactly the matched index)
and appends an entry with the same text and a non-null completed
timestamp to the completed sequence; moreover, in every store reachable
from the fresh store by add/delete/complete/clear operations, no task
record is in the pending and the completed sequence at the same time. -/
theorem complete_moves_pending_to_completed (s : Store)
    (hreach : ∃ now0 ops, s = runOps (emptyStore now0) ops)
    (now ident : String) (i : Nat) (t : Task)
    (hres : resolvePending ident s.tasks = some (i, t)) :
    s.tasks[i]? = some t ∧
    (completeTask now ident s).2.tasks = s.tasks.eraseIdx i ∧
    (completeTask now ident s).2.completed
      = s.completed ++ [{ t with status := "completed", completed_date := some now }] ∧
    ({ t with status := "completed", completed_date := some now } : Task).text = t.text ∧
    ({ t with status := "completed", completed_date := some now } : Task).completed_date ≠ none ∧
    (∀ u ∈ (completeTask now ident s).2.tasks, u ∉ (completeTask now ident s).2.completed) ∧
    (∀ now1 ops1, ∀ u ∈ (runOps (emptyStore now1) ops1).tasks,
        u ∉ (runOps (emptyStore now1) ops1).completed) := by
  obtain ⟨now0, ops, hs⟩ := hreach
  have hinv : StoreInv s := hs ▸ storeInv_runOps _ ops (storeInv_empty now0)
  obtain ⟨hget, _, _⟩ := findWithIdx_eq_some _ _ _ _ hres
  obtain ⟨h1, h2⟩ := completeTask_eq_of_resolve now ident s i t hres hinv.1
  refine ⟨hget, h1, h2, rfl, by simp, ?_, ?_⟩
  · have hinv2 : StoreInv (applyOp s (Op.comp now ident)) := storeInv_applyOp s _ hinv
    intro u hu
    exact storeInv_disjoint _ hinv2 u hu
  · intro now1 ops1 u hu
    exact storeInv_disjoint _ (storeInv_runOps _ ops1 (storeInv_empty now1)) u hu

/-- Witness for C1: in the store with the single pending task "buy milk",
completing identifier "1" empties pending and appends the completed
record with the same text and timestamp "t1". -/
theorem complete_moves_pending_to_completed_witness :
    (completeTask "t1" "1" (runOps (emptyStore "t0") [Op.add "t0" "buy milk" "medium" none])).2.tasks
      = [] ∧
    (completeTask "t1" "1" (runOps (emptyStore "t0") [Op.add "t0" "buy milk" "medium" none])).2.completed
      = [{ id := 1, text := "buy milk", priority := "medium", status := "completed",
           created := "t0", due_date := none, completed_date := some "t1" }] := by
  have h := complete_moves_pending_to_completed
      (runOps (emptyStore "t0") [Op.add "t0" "buy milk" "medium" none])
      ⟨"t0", [Op.add "t0" "buy milk" "medium" none], rfl⟩ "t1" "1" 0
      { id := 1, text := "buy milk", priority := "medium", status := "pending",
        created := "t0", due_date := none, completed_date := none }
      (by decide)
  constructor
  · rw [h.2.1]; decide
  · rw [h.2.2.1]; decide

/-- C2: identifier resolution in `delete_task` and `complete_task` is
two-phase — by integer id when `int(...)` succeeds, else by
case-insensitive substring over pending text — always taking the first
match in pending order; when nothing matches, both return the not-found
message and leave the store unchanged, and a successful delete erases
exactly the matched index without touching completed. -/
theorem delete_complete_two_phase (now ident : String) (s : Store) :
    ((∀ t ∈ s.tasks, matchesIdent ident t = false) →
        deleteTask now ident s = ("Task not found with that " ++ notFoundMsg ident, s) ∧
        completeTask now ident s = ("Task not found with that " ++ notFoundMsg ident, s)) ∧
    (∀ n, pyParseInt ident = some n → ∀ t : Task, matchesIdent ident t = (t.id == n)) ∧
    (pyParseInt ident = none →
        ∀ t : Task, matchesIdent ident t = strContains (pyLower t.text) (pyLower ident)) ∧
    (∀ i t, resolvePending ident s.tasks = some (i, t) →
        s.tasks[i]? = some t ∧ matchesIdent ident t = true ∧
        (∀ j u, j < i → s.tasks[j]? = some u → matchesIdent ident u = false) ∧
        (deleteTask now ident s).2.tasks = s.tasks.eraseIdx i ∧
        (deleteTask now ident s).2.completed = s.completed) := by
  refine ⟨?_, ?_, ?_, ?_⟩
  · intro hall
    have hnone : resolvePending ident s.tasks = none := (findWithIdx_eq_none _ _).mpr hall
    constructor
    · simp [deleteTask, hnone]
    · simp [completeTask, hnone]
  · intro n hn t
    simp [matchesIdent, hn]
  · intro hn t
    simp [matchesIdent, hn]
  · intro i t hres
    obtain ⟨h1, h2, h3⟩ := findWithIdx_eq_some _ _ _ _ hres
    refine ⟨h1, h2, h3, ?_, ?_⟩ <;> simp [deleteTask, hres, saveTasks]

/-- Witness for C2: deleting identifier "2" from the store whose only
pending task has id 1 returns the ID-flavoured not-found message and
leaves the store unchanged; deleting "call" by text fallback empties
pending. -/
theorem delete_complete_two_phase_witness :
    deleteTask "t1" "2" (runOps (emptyStore "t0") [Op.add "t0" "pay rent" "medium" none])
      = ("Task not found with that ID.",
         runOps (emptyStore "t0") [Op.add "t0" "pay rent" "medium" none]) ∧
    (deleteTask "t1" "call" (runOps (emptyStore "t0") [Op.add "t0" "call mom" "medium" none])).2.tasks
      = [] := by
  constructor
  · have h := (delete_complete_two_phase "t1" "2"
        (runOps (emptyStore "t0") [Op.add "t0" "pay rent" "medium" none])).1 (by decide)
    rw [h.1]; decide
  · have h := (delete_complete_two_phase "t1" "call"
        (runOps (emptyStore "t0") [Op.add "t0" "call mom" "medium" none])).2.2.2 0
        { id := 1, text := "call mom", priority := "medium", status := "pending",
          created := "t0", due_date := none, completed_date := none } (by decide)
    rw [h.2.2.2.1]; decide

/-- C3: saving a store (which stamps `last_modified`) and reading the
saved JSON document back reproduces the store exactly: the same pending
tasks with the same fields in the same order, the same completed tasks,
and the same creation timestamp. -/
theorem save_load_roundtrip (now : String) (s : Store) :
    jsonToStore (storeToJson (saveTasks now s)) = some (saveTasks now s) ∧
    (saveTasks now s).tasks = s.tasks ∧
    (saveTasks now s).completed = s.completed ∧
    (saveTasks now s).created_date = s.created_date :=
  ⟨jsonToStore_storeToJson _, rfl, rfl, rfl⟩

/-- C4 counterexample: after adds of "a","b","c", a delete of id 1 and an
add of "d", the pending ids are `[2, 3, 3]` — the freshly assigned id
`count(pending)+1 = 3` duplicates the id of pending task "c", so the
assigned id is not unique within the pending list in this reachable
state. -/
theorem add_id_unique_cex :
    ((runOps (emptyStore "t") [Op.add "t" "a" "medium" none, Op.add "t" "b" "medium" none,
        Op.add "t" "c" "medium" none, Op.del "t" "1", Op.add "t" "d" "medium" none]).tasks.map
          Task.id)
      = [2, 3, 3] ∧
    ¬ ((runOps (emptyStore "t") [Op.add "t" "a" "medium" none, Op.add "t" "b" "medium" none,
        Op.add "t" "c" "medium" none, Op.del "t" "1", Op.add "t" "d" "medium" none]).tasks.map
          Task.id).Nodup := by
  constructor <;> decide

/-- C4 (amended): `add_task` always assigns the new task the id
`count(pending)+1`; this id is unique within the pending list whenever
every existing pending id is at most `count(pending)` (as in stores built
by adds alone) — after deletions that bound can fail and the assigned id
may duplicate an existing pending id. -/
theorem add_id_assignment (now text priority : String) (dueDate : Option String) (s : Store)
    (htext : pyStrip text ≠ "")
    (hids : ∀ t ∈ s.tasks, t.id ≤ (s.tasks.length : Int)) :
    (addTask now text priority dueDate s).2.tasks
      = s.tasks ++ [{ id := (s.tasks.length : Int) + 1, text := pyStrip text,
                      priority := pyLower priority, status := "pending", created := now,
                      due_date := dueDate, completed_date := none }] ∧
    ∀ t ∈ s.tasks, t.id ≠ (s.tasks.length : Int) + 1 := by
  constructor
  · simp [addTask, htext, saveTasks]
  · intro t ht hcon
    have hle := hids t ht
    rw [hcon] at hle
    omega

/-- Witness for C4 (amended): adding "a" to the empty store assigns id 1. -/
theorem add_id_assignment_witness :
    (addTask "t0" "a" "medium" none (emptyStore "t")).2.tasks
      = [{ id := 1, text := "a", priority := "medium", status := "pending", created := "t0",
           due_date := none, completed_date := none }] := by
  have h := add_id_assignment "t0" "a" "medium" none (emptyStore "t") (by decide) (by decide)
  rw [h.1]; decide

/-- C5: `add_task` on text that strips to empty fails with the validation
message and leaves the store (in particular the pending list) unchanged;
on text that strips non-empty it succeeds and appends a task whose stored
text is the whitespace-stripped input. -/
theorem add_empty_validation (now text priority : String) (dueDate : Option String) (s : Store) :
    (pyStrip text = "" →
        addTask now text priority dueDate s = ("Error: Task cannot be empty.", s)) ∧
    (pyStrip text ≠ "" →
        (addTask now text priority dueDate s).1 = "Task added successfully: " ++ pyStrip text ∧
        (addTask now text priority dueDate s).2.tasks
          = s.tasks ++ [{ id := (s.tasks.length : Int) + 1, text := pyStrip text,
                          priority := pyLower priority, status := "pending", created := now,
                          due_date := dueDate, completed_date := none }]) := by
  constructor
  · intro he
    simp [addTask, he]
  · intro he
    constructor
    · simp [addTask, he]
    · simp [addTask, he, saveTasks]

/-- Witness for C5: whitespace-only text is rejected with the store
unchanged; "buy milk" is accepted with the success message. -/
theorem add_empty_validation_witness :
    addTask "t0" "   " "medium" none (emptyStore "t")
      = ("Error: Task cannot be empty.", emptyStore "t") ∧
    (addTask "t0" "buy milk" "medium" none (emptyStore "t")).1
      = "Task added successfully: buy milk" := by
  constructor
  · exact (add_empty_validation "t0" "   " "medium" none (emptyStore "t")).1 (by decide)
  · have h := (add_empty_validation "t0" "buy milk" "medium" none (emptyStore "t")).2 (by decide)
    rw [h.1]; decide

/-- C6: `search_tasks` returns exactly the pending tasks whose text
contains the term case-insensitively — it is the order-preserving filter
of the pending list (hence a sublist, preserving insertion order), it is
pure (the store is not part of its result), and membership is equivalent
to pending membership plus the case-insensitive containment test. -/
theorem search_filter_spec (term : String) (s : Store) :
    searchTasks term s = s.tasks.filter (fun t => strContains (pyLower t.text) (pyLower term)) ∧
    (searchTasks term s).Sublist s.tasks ∧
    ∀ t : Task, t ∈ searchTasks term s ↔
      t ∈ s.tasks ∧ strContains (pyLower t.text) (pyLower term) = true := by
  refine ⟨rfl, List.filter_sublist _, ?_⟩
  intro t
  simp [searchTasks, List.mem_filter]

/-- C7 counterexample: the utterance "add a new task buy milk" does reach
the add-task branch, but the remainder after the branch strips its
trigger substrings is not "buy milk" (the words "add a" survive, since
only the literal phrases "new task" and "add task" are replaced), so the
stored pending text is not "buy milk" either. -/
theorem new_task_remainder_cex :
    synbiIntent "add a new task buy milk" = "new_task" ∧
    newTaskText "add a new task buy milk" ≠ "buy milk" ∧
    ((newTaskBranch "t0" "add a new task buy milk" (emptyStore "t0")).2.tasks.map Task.text)
      ≠ ["buy milk"] := by
  refine ⟨by decide, by decide, by decide⟩

/-- C7 (amended): intent matching is order-sensitive and "add a new task
buy milk" resolves to the add-task branch (no earlier trigger in the
dispatch chain matches), but the remainder after stripping the trigger is
"add a  buy milk", so the resulting pending list has exactly one entry
with text "add a  buy milk" and priority "medium". -/
theorem new_task_branch_amended :
    synbiIntent "add a new task buy milk" = "new_task" ∧
    newTaskText "add a new task buy milk" = "add a  buy milk" ∧
    newTaskPriority "add a new task buy milk" = "medium" ∧
    ((newTaskBranch "t0" "add a new task buy milk" (emptyStore "t0")).2.tasks.map
        (fun t => (t.text, t.priority)))
      = [("add a  buy milk", "medium")] := by
  refine ⟨by decide, by decide, by decide, by decide⟩

/-- C8: the file deletion of `delete_item` is performed exactly when the
path is valid and the confirmation loop captured an explicit affirmative
token (first decision among at most three attempts); a negative token or
three attempts without a decision yield "no", the deletion is not
performed and the cancellation message is returned; at most one deletion
ever happens, and if no response classifies as affirmative the deletion
can never run (the protocol never auto-confirms). -/
theorem delete_confirmation_gate (item folder : String) (pOk dir : Bool)
    (responses : List (Option String)) :
    ((deleteItem item folder { pathOk := pOk, isDir := dir } responses).1 = 1
        ↔ pOk = true ∧ listenForConfirmation responses = "yes") ∧
    (deleteItem item folder { pathOk := pOk, isDir := dir } responses).1 ≤ 1 ∧
    (pOk = true → listenForConfirmation responses ≠ "yes" →
        deleteItem item folder { pathOk := pOk, isDir := dir } responses
          = (0, "Delete operation cancelled.")) ∧
    (listenForConfirmation responses = "yes"
        ↔ (responses.take 3).findSome? classifyConfirmation = some true) ∧
    ((∀ r ∈ responses, classifyConfirmation r ≠ some true) →
        (deleteItem item folder { pathOk := pOk, isDir := dir } responses).1 = 0) := by
  have hyes := confirmLoop_eq_yes 3 responses
  refine ⟨?_, ?_, ?_, hyes, ?_⟩
  · cases pOk with
    | false =>
      simp [deleteItem]
    | true =>
      by_cases hy : listenForConfirmation responses = "yes"
      · simp [deleteItem, hy]
      · simp [deleteItem, hy]
  · cases pOk with
    | false => simp [deleteItem]
    | true =>
      by_cases hy : listenForConfirmation responses = "yes"
      · simp [deleteItem, hy]
      · simp [deleteItem, hy]
  · intro hp hy
    simp [deleteItem, hp, hy]
  · intro hall
    cases pOk with
    | false => simp [deleteItem]
    | true =>
      have hno : listenForConfirmation responses ≠ "yes" := by
        intro hy
        obtain ⟨r, hr, hcl⟩ := List.exists_of_findSome?_eq_some (hyes.mp hy)
        exact hall r (List.take_subset 3 responses hr) hcl
      simp [deleteItem, hno]

/-- Witness for C8: with a valid path, the response "no" cancels without
deleting, and the response "yes" performs exactly one deletion. -/
theorem delete_confirmation_gate_witness :
    deleteItem "report.docx" "downloads" { pathOk := true, isDir := false } [some "no"]
      = (0, "Delete operation cancelled.") ∧
    (deleteItem "report.docx" "downloads" { pathOk := true, isDir := false } [some "yes"]).1
      = 1 := by
  constructor
  · exact (delete_confirmation_gate "report.docx" "downloads" true false [some "no"]).2.2.1
      rfl (by decide)
  · exact (delete_confirmation_gate "report.docx" "downloads" true false [some "yes"]).1.mpr
      ⟨rfl, by decide⟩

/-- C9: on a non-empty pending list, `delete_task` and `complete_task`
called with the empty-string identifier (which fails integer parsing and
lowercases to the empty string, a substring of every text) match the
first pending task: the call removes or completes that task instead of
returning not-found. -/
theorem empty_ident_matches_first (now : String) (s : Store) (t : Task) (rest : List Task)
    (h : s.tasks = t :: rest) :
    resolvePending "" s.tasks = some (0, t) ∧
    deleteTask now "" s
      = ("Task deleted: " ++ t.text, saveTasks now { s with tasks := rest }) ∧
    (completeTask now "" s).2.tasks = rest ∧
    (completeTask now "" s).2.completed
      = s.completed ++ [{ t with status := "completed", completed_date := some now }] := by
  have hm : matchesIdent "" t = true := by
    show strContains (pyLower t.text) (pyLower "") = true
    exact containsSub_nil _
  have hres : resolvePending "" s.tasks = some (0, t) := by
    rw [h]
    simp [resolvePending, findWithIdx, hm]
  refine ⟨hres, ?_, ?_, ?_⟩
  · simp only [deleteTask, hres]
    rw [h]
    rfl
  · simp only [completeTask, hres]
    rw [show ∀ u : Store, (saveTasks now u).tasks = u.tasks from fun _ => rfl]
    show pyRemove _ (s.tasks.set 0 _) = rest
    rw [h]
    simp [pyRemove]
  · simp only [completeTask, hres]
    rfl

/-- Witness for C9: deleting with identifier "" removes the sole pending
task "call mom"; completing with "" empties pending. -/
theorem empty_ident_matches_first_witness :
    (deleteTask "t1" "" (runOps (emptyStore "t0") [Op.add "t0" "call mom" "medium" none])).1
      = "Task deleted: call mom" ∧
    (completeTask "t1" "" (runOps (emptyStore "t0") [Op.add "t0" "call mom" "medium" none])).2.tasks
      = [] := by
  have h := empty_ident_matches_first "t1"
      (runOps (emptyStore "t0") [Op.add "t0" "call mom" "medium" none])
      { id := 1, text := "call mom", priority := "medium", status := "pending", created := "t0",
        due_date := none, completed_date := none } [] (by decide)
  constructor
  · rw [h.2.1]; decide
  · exact h.2.2.1

/-- C10: `clear_completed_tasks` empties exactly the completed sequence
and reports the number cleared; the pending sequence and the creation
timestamp are untouched. -/
theorem clear_completed_frame (now : String) (s : Store) :
    (clearCompleted now s).2.completed = [] ∧
    (clearCompleted now s).2.tasks = s.tasks ∧
    (clearCompleted now s).2.created_date = s.created_date ∧
    (clearCompleted now s).1
      = "Cleared " ++ toString s.completed.length ++ " completed task" ++
          (if s.completed.length ≠ 1 then "s" else "") ++ "." :=
  ⟨rfl, rfl, rfl, rfl⟩

end Jarvis
